import Mathlib

/-!
Verification of the PDF-ingestion service (boardgame-ref repository).

The repository contains two FastAPI services and two batch scripts:
  * `src/packages/pdf-ingestion-service/main.py` — `process_pdf_document`:
    upload a PDF, convert it, chunk it, contextualize every chunk, compute
    embeddings in one batch, and return chunk records with embeddings.
  * `src/packages/pdf-ingestion/main.py` — `extract_pdf_chunks`: the same
    pipeline without the embedding step.
  * `src/packages/pdf-ingestion-service/ingestion.py` — a batch script that
    converts every PDF of a local folder to markdown, one output per file.

The document converter (`docling.DocumentConverter`), the chunker
(`docling_core HierarchicalChunker.chunk`) and its `contextualize` method,
and the OpenAI embeddings client are external collaborators: they are
modelled here as parameters of the request (outcomes of the external
calls), except for `contextualize`, which is modelled from the spec.
-/

namespace BoardgameRef

/-- A metadata dictionary (Python `dict` exported by `export_json_dict`). -/
abbrev MetaDict := List (String × String)

/-- An embedding vector.  The claims only concern counts and positions of
vectors, never float arithmetic, so entries are modelled exactly. -/
abbrev Vec := List Int

/-- A chunk as produced by the external chunker: its own text, its ancestor
heading trail (root-to-leaf), and the metadata export when the meta object
has an `export_json_dict` method (`none` models `hasattr` being false). -/
structure Chunk where
  text : String
  headings : List String
  metaExport : Option MetaDict
  deriving Repr, DecidableEq

/-- The converted document: full extracted text plus the chunk list the
external chunker yields for it (`chunker.chunk(dl_doc=doc)`). -/
structure Document where
  full_text : String
  chunks : List Chunk
  deriving Repr, DecidableEq

/-- Modelled from the spec: the external `HierarchicalChunker.contextualize`
method is not part of this repository.  Per §4.3 the output is the chunk's
heading trail rendered root-to-leaf, one level per separator, skipped
entirely when empty, followed by the chunk's raw text. -/
def contextualize (c : Chunk) : String :=
  match c.headings with
  | [] => c.text
  | _ :: _ => String.intercalate "\n" c.headings ++ "\n" ++ c.text

/-- Modelled from the spec: contextualization with the chunk object passed
back, to express that the call does not mutate the chunk (§4.3: "it must
not mutate the chunk"; pure function of the chunk state). -/
def contextualizeS (c : Chunk) : String × Chunk :=
  (contextualize c, c)

/-- `a` occurs verbatim as a substring of `b`. -/
def IsSubstringOf (a b : String) : Prop :=
  a.data <:+: b.data

instance (a b : String) : Decidable (IsSubstringOf a b) :=
  inferInstanceAs (Decidable (a.data <:+: b.data))

/-- The `{detail: string}` error body together with the HTTP status code of
the `HTTPException` raised by a handler. -/
structure ErrResponse where
  status : Nat
  detail : String
  deriving Repr, DecidableEq

/-- One element of the `chunks` list of `ProcessedDocumentResponse`
(`ChunkResponse` in `pdf-ingestion-service/main.py`). -/
structure ChunkResponse where
  text : String
  contextualized_text : String
  embedding : Vec
  index : Nat
  meta : MetaDict
  deriving Repr, DecidableEq

/-- `ProcessedDocumentResponse` in `pdf-ingestion-service/main.py`. -/
structure ProcessedDocumentResponse where
  chunks : List ChunkResponse
  total_chunks : Nat
  full_text : String
  deriving Repr, DecidableEq

/-- One element of the `chunks` list of `ChunksResponse`
(`ChunkResponse` in `pdf-ingestion/main.py`, which has no embedding and no
index field). -/
structure ChunkResponseNE where
  text : String
  contextualized_text : String
  meta : MetaDict
  deriving Repr, DecidableEq

/-- `ChunksResponse` in `pdf-ingestion/main.py`. -/
structure ChunksResponse where
  chunks : List ChunkResponseNE
  total_chunks : Nat
  deriving Repr, DecidableEq

/-- Observable side effects of a handler run, in order.  `tmpCreate` is the
creation of the named temporary file on disk, `tmpUnlink` its deletion;
`embedCall` records the batch of input strings submitted to the embeddings
client. -/
inductive Event where
  | tmpCreate : Event
  | convertCall : Event
  | chunkCall : Event
  | embedCall : List String → Event
  | tmpUnlink : Event
  deriving Repr, DecidableEq

/-- A request to `process_pdf_document`, with the outcomes of the external
calls it makes: `filename` of the upload (`none` models a missing
filename), `stage` the outcome of reading the upload and writing it into
the temporary file, `convert` the outcome of
`converter.convert(path).document`, and `embed` the embeddings client
(`openai_client.embeddings.create`), mapping the submitted input strings to
either the returned vector list or a raised error. -/
structure Request where
  filename : Option String
  stage : Except String Unit
  convert : Except String Document
  embed : List String → Except String (List Vec)

/-- A request to `extract_pdf_chunks` (no embedding step). -/
structure RequestNE where
  filename : Option String
  stage : Except String Unit
  convert : Except String Document

/-- The result of a handler run: the event trace and either the success
response or the raised `HTTPException`. -/
structure HandlerOut (α : Type) where
  events : List Event
  result : Except ErrResponse α

instance {ε α : Type} [DecidableEq ε] [DecidableEq α] :
    DecidableEq (Except ε α) := fun a b =>
  match a, b with
  | Except.ok x, Except.ok y =>
    if h : x = y then isTrue (by rw [h])
    else isFalse (fun hh => h (by injection hh))
  | Except.error x, Except.error y =>
    if h : x = y then isTrue (by rw [h])
    else isFalse (fun hh => h (by injection hh))
  | Except.ok _, Except.error _ => isFalse (fun hh => Except.noConfusion hh)
  | Except.error _, Except.ok _ => isFalse (fun hh => Except.noConfusion hh)

instance {α : Type} [DecidableEq α] : DecidableEq (HandlerOut α) := fun a b =>
  match a, b with
  | ⟨e1, r1⟩, ⟨e2, r2⟩ =>
    if h1 : e1 = e2 then
      if h2 : r1 = r2 then isTrue (by rw [h1, h2])
      else isFalse (fun h => h2 (by injection h))
    else isFalse (fun h => h1 (by injection h))

/-- The fields of one entry of the Python `chunk_data` list built in the
first loop of `process_pdf_document`. -/
structure ChunkData where
  text : String
  contextualized_text : String
  meta : MetaDict
  index : Nat
  deriving Repr, DecidableEq

/-- `chunk.meta.export_json_dict() if hasattr(chunk.meta, 'export_json_dict')
else {}`. -/
def metaOf (c : Chunk) : MetaDict :=
  c.metaExport.getD []

/-- The first loop of `process_pdf_document`: `for idx, chunk in
enumerate(chunk_iter)` builds `chunk_data` in document order, stamping each
entry with its enumeration index. -/
def chunkDataOf (cs : List Chunk) : List ChunkData :=
  cs.enum.map fun p =>
    { text := p.2.text
      contextualized_text := contextualize p.2
      meta := metaOf p.2
      index := p.1 }

/-- The second loop of `process_pdf_document`: `for i, chunk_info in
enumerate(chunk_data)` builds each `ChunkResponse` from
`embeddings_response.data[i].embedding`.  Indexing past the end of the
returned vector list raises `IndexError("list index out of range")`. -/
def attachEmbeddings (ds : List ChunkData) (vecs : List Vec) (i : Nat) :
    Except String (List ChunkResponse) :=
  match ds with
  | [] => Except.ok []
  | d :: rest =>
    match vecs.get? i with
    | none => Except.error "list index out of range"
    | some v =>
      (attachEmbeddings rest vecs (i + 1)).map fun tail =>
        { text := d.text
          contextualized_text := d.contextualized_text
          embedding := v
          index := d.index
          meta := d.meta } :: tail

/-- The 400 response raised when the filename check fails. -/
def badFileErr : ErrResponse :=
  { status := 400, detail := "Only PDF files are supported" }

/-- The 500 response raised by the `except` clause:
`HTTPException(status_code=500, detail=f"Error processing PDF: {str(e)}")`. -/
def processErr (e : String) : ErrResponse :=
  { status := 500, detail := "Error processing PDF: " ++ e }

/-- Python's `fn.endswith('.pdf')`: the character sequence of the filename
ends with the four characters `.pdf`. -/
def endsWithPdf (fn : String) : Bool :=
  ".pdf".data.isSuffixOf fn.data

/-- The Python filename guard: `not file.filename or not
file.filename.endswith('.pdf')` (a `None` or empty filename is falsy). -/
def filenameRejected (filename : Option String) : Bool :=
  match filename with
  | none => true
  | some fn => fn = "" || !(endsWithPdf fn)

/-- Shallow embedding of `process_pdf_document`
(`src/packages/pdf-ingestion-service/main.py`).  The filename guard runs
before anything else; the temporary file is created, then the upload is
read and written into it and only after that is `tmp_file_path` assigned,
so a staging failure leaves `tmp_file_path = None` and the `except` clause
skips the unlink; conversion, chunking, contextualization, one batched
embedding call, and response assembly follow, with the unlink performed on
the success path and in the `except` clause whenever `tmp_file_path` is
set. -/
def process_pdf_document (req : Request) :
    HandlerOut ProcessedDocumentResponse :=
  if filenameRejected req.filename then
    { events := [], result := Except.error badFileErr }
  else
    match req.stage with
    | Except.error e =>
      -- tmp_file_path is still None: the except clause does not unlink.
      { events := [Event.tmpCreate], result := Except.error (processErr e) }
    | Except.ok _ =>
      match req.convert with
      | Except.error e =>
        { events := [Event.tmpCreate, Event.convertCall, Event.tmpUnlink]
          result := Except.error (processErr e) }
      | Except.ok doc =>
        let cs := doc.chunks
        let data := chunkDataOf cs
        let inputs := cs.map contextualize
        match req.embed inputs with
        | Except.error e =>
          { events := [Event.tmpCreate, Event.convertCall, Event.chunkCall,
                       Event.embedCall inputs, Event.tmpUnlink]
            result := Except.error (processErr e) }
        | Except.ok vecs =>
          match attachEmbeddings data vecs 0 with
          | Except.error e =>
            { events := [Event.tmpCreate, Event.convertCall, Event.chunkCall,
                         Event.embedCall inputs, Event.tmpUnlink]
              result := Except.error (processErr e) }
          | Except.ok chunks =>
            { events := [Event.tmpCreate, Event.convertCall, Event.chunkCall,
                         Event.embedCall inputs, Event.tmpUnlink]
              result := Except.ok
                { chunks := chunks
                  total_chunks := chunks.length
                  full_text := doc.full_text } }

/-- The loop body of `extract_pdf_chunks`: each chunk becomes a
`ChunkResponse` with text, contextualized text, and metadata. -/
def chunkResponsesNE (cs : List Chunk) : List ChunkResponseNE :=
  cs.map fun c =>
    { text := c.text
      contextualized_text := contextualize c
      meta := metaOf c }

/-- Shallow embedding of `extract_pdf_chunks`
(`src/packages/pdf-ingestion/main.py`): the same pipeline without the
embedding step. -/
def extract_pdf_chunks (req : RequestNE) : HandlerOut ChunksResponse :=
  if filenameRejected req.filename then
    { events := [], result := Except.error badFileErr }
  else
    match req.stage with
    | Except.error e =>
      { events := [Event.tmpCreate], result := Except.error (processErr e) }
    | Except.ok _ =>
      match req.convert with
      | Except.error e =>
        { events := [Event.tmpCreate, Event.convertCall, Event.tmpUnlink]
          result := Except.error (processErr e) }
      | Except.ok doc =>
        { events := [Event.tmpCreate, Event.convertCall, Event.chunkCall,
                     Event.tmpUnlink]
          result := Except.ok
            { chunks := chunkResponsesNE doc.chunks
              total_chunks := (chunkResponsesNE doc.chunks).length } }

/-- Shallow embedding of the batch script
(`src/packages/pdf-ingestion-service/ingestion.py`): for each PDF file of
the scanned folder, in order, attempt conversion to markdown; a success
writes one `stem.md` output file, a failure is logged and the loop
continues with the next file.  `convert` maps a file name to either the
markdown text or the raised error's message; returns the written output
files (name, content) and the logged per-file errors (name, message). -/
def batchConvert (files : List String) (stem : String → String)
    (convert : String → Except String String) :
    List (String × String) × List (String × String) :=
  match files with
  | [] => ([], [])
  | f :: rest =>
    let (outs, errs) := batchConvert rest stem convert
    match convert f with
    | Except.ok md => ((stem f ++ ".md", md) :: outs, errs)
    | Except.error e => (outs, (f, e) :: errs)

/-- The list a successful `attachEmbeddings ds vecs i` run produces: each
`chunk_data` entry paired with the vector at its position (offset `i`). -/
def attachedList (ds : List ChunkData) (vecs : List Vec) (i : Nat) :
    List ChunkResponse :=
  match ds with
  | [] => []
  | d :: rest =>
    { text := d.text
      contextualized_text := d.contextualized_text
      embedding := vecs.getD i []
      index := d.index
      meta := d.meta } :: attachedList rest vecs (i + 1)

/-- A two-chunk document matching the worked example of the spec. -/
def docTwo : Document :=
  { full_text := "full"
    chunks :=
      [ { text := "Hello world.", headings := ["Introduction"],
          metaExport := none }
      , { text := "Second para.", headings := ["Introduction"],
          metaExport := some [("page", "1")] } ] }

/-- A request whose external calls all succeed, with exactly one returned
vector per submitted string. -/
def reqTwo : Request :=
  { filename := some "doc.pdf"
    stage := Except.ok ()
    convert := Except.ok docTwo
    embed := fun _ => Except.ok [[1], [2]] }

/-- The response `process_pdf_document` produces on `reqTwo`. -/
def respTwo : ProcessedDocumentResponse :=
  { chunks :=
      [ { text := "Hello world."
          contextualized_text := "Introduction\nHello world."
          embedding := [1], index := 0, meta := [] }
      , { text := "Second para."
          contextualized_text := "Introduction\nSecond para."
          embedding := [2], index := 1, meta := [("page", "1")] } ]
    total_chunks := 2
    full_text := "full" }

/-- A one-chunk document with no headings. -/
def docOne : Document :=
  { full_text := "f"
    chunks := [{ text := "Hello", headings := [], metaExport := none }] }

/-- A request whose converted document has one chunk but whose embeddings
client returns two vectors (a count mismatch, one vector too many). -/
def reqExtraVec : Request :=
  { filename := some "doc.pdf"
    stage := Except.ok ()
    convert := Except.ok docOne
    embed := fun _ => Except.ok [[1], [2]] }

/-- A request whose converted document has one chunk but whose embeddings
client returns no vector at all (a count mismatch, too few vectors). -/
def reqShortVec : Request :=
  { filename := some "doc.pdf"
    stage := Except.ok ()
    convert := Except.ok docOne
    embed := fun _ => Except.ok [] }

/-- A request on which reading the upload raises before `tmp_file_path` is
assigned (e.g. the client disconnects during `await file.read()`). -/
def reqLeak : Request :=
  { filename := some "a.pdf"
    stage := Except.error "client disconnected"
    convert := Except.ok { full_text := "", chunks := [] }
    embed := fun _ => Except.ok [] }

/-- A request whose converted document yields no chunks. -/
def reqEmptyDoc : Request :=
  { filename := some "empty.pdf"
    stage := Except.ok ()
    convert := Except.ok { full_text := "t", chunks := [] }
    embed := fun _ => Except.ok [] }

/-- A no-embedding request whose converted document yields no chunks. -/
def reqNEEmptyDoc : RequestNE :=
  { filename := some "empty.pdf"
    stage := Except.ok ()
    convert := Except.ok { full_text := "t", chunks := [] } }

/-- A no-embedding request with one chunk lacking `export_json_dict`. -/
def reqNEOne : RequestNE :=
  { filename := some "doc.pdf"
    stage := Except.ok ()
    convert := Except.ok
      { full_text := "f"
        chunks := [{ text := "Hi", headings := ["H"], metaExport := none }] } }

/-- The response `extract_pdf_chunks` produces on `reqNEOne`. -/
def respNEOne : ChunksResponse :=
  { chunks := [{ text := "Hi", contextualized_text := "H\nHi", meta := [] }]
    total_chunks := 1 }

/-- An upload whose filename does not end in `.pdf`. -/
def reqBadName : Request :=
  { filename := some "doc.txt"
    stage := Except.ok ()
    convert := Except.ok { full_text := "", chunks := [] }
    embed := fun _ => Except.ok [] }

/-- A no-embedding upload whose filename does not end in `.pdf`. -/
def reqNEBadName : RequestNE :=
  { filename := some "doc.txt"
    stage := Except.ok ()
    convert := Except.ok { full_text := "", chunks := [] } }

lemma getD_of_lt {α : Type} (l : List α) (d : α) (i : Nat) (h : i < l.length) :
    l.getD i d = l.get ⟨i, h⟩ := by
  simp [List.getD_eq_getElem?_getD, List.getElem?_eq_getElem h]

lemma attachEmbeddings_ok_of_le (ds : List ChunkData) (vecs : List Vec)
    (i : Nat) (h : i + ds.length ≤ vecs.length) :
    attachEmbeddings ds vecs i = Except.ok (attachedList ds vecs i) := by
  induction ds generalizing i with
  | nil => simp [attachEmbeddings, attachedList]
  | cons d rest ih =>
    have hi : i < vecs.length := by
      simp only [List.length_cons] at h
      omega
    have hrec : i + 1 + rest.length ≤ vecs.length := by
      simp only [List.length_cons] at h
      omega
    simp only [attachEmbeddings, attachedList, List.get?_eq_get hi,
      ih (i + 1) hrec, Except.map, getD_of_lt vecs [] i hi]

lemma attachEmbeddings_error_of_lt (ds : List ChunkData) (vecs : List Vec)
    (i : Nat) (hne : ds ≠ []) (h : vecs.length < i + ds.length) :
    attachEmbeddings ds vecs i = Except.error "list index out of range" := by
  induction ds generalizing i with
  | nil => exact absurd rfl hne
  | cons d rest ih =>
    by_cases hi : i < vecs.length
    · have hrest : rest ≠ [] := by
        intro hr
        subst hr
        simp only [List.length_cons, List.length_nil] at h
        omega
      have hlt : vecs.length < i + 1 + rest.length := by
        simp only [List.length_cons] at h
        omega
      simp only [attachEmbeddings, List.get?_eq_get hi, ih (i + 1) hrest hlt,
        Except.map]
    · have hnone : vecs.get? i = none := by
        rw [List.get?_eq_none]
        omega
      simp only [attachEmbeddings, hnone]

lemma attachEmbeddings_ok_inv (ds : List ChunkData) (vecs : List Vec)
    (out : List ChunkResponse)
    (h : attachEmbeddings ds vecs 0 = Except.ok out) :
    ds.length ≤ vecs.length ∧ out = attachedList ds vecs 0 := by
  by_cases hle : ds.length ≤ vecs.length
  · refine ⟨hle, ?_⟩
    rw [attachEmbeddings_ok_of_le ds vecs 0 (by omega)] at h
    exact (Except.ok.injEq _ _).mp h.symm
  · exfalso
    have hne : ds ≠ [] := by
      intro hd
      subst hd
      simp at hle
    rw [attachEmbeddings_error_of_lt ds vecs 0 hne (by omega)] at h
    exact Except.noConfusion h

lemma attachedList_length (ds : List ChunkData) (vecs : List Vec) (i : Nat) :
    (attachedList ds vecs i).length = ds.length := by
  induction ds generalizing i with
  | nil => rfl
  | cons d rest ih => simp [attachedList, ih]

lemma attachedList_getElem? (ds : List ChunkData) (vecs : List Vec)
    (i j : Nat) :
    (attachedList ds vecs i)[j]? =
      ds[j]?.map fun d =>
        { text := d.text
          contextualized_text := d.contextualized_text
          embedding := vecs.getD (i + j) []
          index := d.index
          meta := d.meta } := by
  induction ds generalizing i j with
  | nil => simp [attachedList]
  | cons d rest ih =>
    cases j with
    | zero => simp [attachedList]
    | succ j =>
      have harith : i + 1 + j = i + (j + 1) := by omega
      simp [attachedList, ih (i + 1) j, harith]

lemma chunkDataOf_length (cs : List Chunk) :
    (chunkDataOf cs).length = cs.length := by
  simp [chunkDataOf, List.enum_length]

lemma chunkDataOf_getElem? (cs : List Chunk) (j : Nat) :
    (chunkDataOf cs)[j]? =
      cs[j]?.map fun c =>
        { text := c.text
          contextualized_text := contextualize c
          meta := metaOf c
          index := j } := by
  simp [chunkDataOf, List.getElem?_enum]
  cases cs[j]? <;> rfl

lemma chunkDataOf_map_index (cs : List Chunk) :
    (chunkDataOf cs).map (fun d => d.index) = List.range cs.length := by
  rw [chunkDataOf, List.map_map]
  have hfun : ((fun d => d.index) ∘ fun p : Nat × Chunk =>
      ({ text := p.2.text
         contextualized_text := contextualize p.2
         meta := metaOf p.2
         index := p.1 } : ChunkData)) = Prod.fst := rfl
  rw [hfun, List.enum_map_fst]

lemma attachedList_map_index (ds : List ChunkData) (vecs : List Vec)
    (i : Nat) :
    (attachedList ds vecs i).map (fun r => r.index) =
      ds.map (fun d => d.index) := by
  induction ds generalizing i with
  | nil => rfl
  | cons d rest ih => simp [attachedList, ih]

lemma process_ok_inversion (req : Request)
    (resp : ProcessedDocumentResponse)
    (h : (process_pdf_document req).result = Except.ok resp) :
    ∃ doc vecs,
      req.convert = Except.ok doc ∧
      req.embed (doc.chunks.map contextualize) = Except.ok vecs ∧
      doc.chunks.length ≤ vecs.length ∧
      resp =
        { chunks := attachedList (chunkDataOf doc.chunks) vecs 0
          total_chunks := (attachedList (chunkDataOf doc.chunks) vecs 0).length
          full_text := doc.full_text } := by
  by_cases hfn : filenameRejected req.filename
  · simp [process_pdf_document, hfn] at h
  · cases hstage : req.stage with
    | error e => simp [process_pdf_document, hfn, hstage] at h
    | ok u =>
      cases hconv : req.convert with
      | error e => simp [process_pdf_document, hfn, hstage, hconv] at h
      | ok doc =>
        cases hemb : req.embed (doc.chunks.map contextualize) with
        | error e => simp [process_pdf_document, hfn, hstage, hconv, hemb] at h
        | ok vecs =>
          cases hatt : attachEmbeddings (chunkDataOf doc.chunks) vecs 0 with
          | error e =>
            simp [process_pdf_document, hfn, hstage, hconv, hemb, hatt] at h
          | ok chunks =>
            obtain ⟨hlen, hout⟩ := attachEmbeddings_ok_inv _ _ _ hatt
            refine ⟨doc, vecs, rfl, ?_, ?_, ?_⟩
            · exact hemb
            · rw [chunkDataOf_length] at hlen
              exact hlen
            · simp [process_pdf_document, hfn, hstage, hconv, hemb, hatt] at h
              subst hout
              exact h.symm

lemma extract_ok_inversion (req : RequestNE) (resp : ChunksResponse)
    (h : (extract_pdf_chunks req).result = Except.ok resp) :
    ∃ doc,
      req.convert = Except.ok doc ∧
      resp =
        { chunks := chunkResponsesNE doc.chunks
          total_chunks := (chunkResponsesNE doc.chunks).length } := by
  by_cases hfn : filenameRejected req.filename
  · simp [extract_pdf_chunks, hfn] at h
  · cases hstage : req.stage with
    | error e => simp [extract_pdf_chunks, hfn, hstage] at h
    | ok u =>
      cases hconv : req.convert with
      | error e => simp [extract_pdf_chunks, hfn, hstage, hconv] at h
      | ok doc =>
        refine ⟨doc, rfl, ?_⟩
        · simp [extract_pdf_chunks, hfn, hstage, hconv] at h
          exact h.symm

lemma contextualize_substring (c : Chunk) :
    IsSubstringOf c.text (contextualize c) := by
  unfold IsSubstringOf contextualize
  cases hh : c.headings with
  | nil => exact List.infix_refl _
  | cons a rest =>
    have hsuff :
        c.text.data <:+
          (String.intercalate "\n" (a :: rest) ++ "\n" ++ c.text).data := by
      rw [String.data_append]
      exact List.suffix_append _ _
    exact hsuff.isInfix

lemma attachedList_embedding (cs : List Chunk) (vecs : List Vec) (j : Nat)
    (hj : j < cs.length) (hjv : j < vecs.length) :
    ((attachedList (chunkDataOf cs) vecs 0)[j]?.map fun r => r.embedding) =
      vecs[j]? := by
  rw [attachedList_getElem?, chunkDataOf_getElem?,
    List.getElem?_eq_getElem hj, List.getElem?_eq_getElem hjv]
  simp [List.getD_eq_getElem?_getD, List.getElem?_eq_getElem hjv]

/-- Claim C2: for every processed document, the index fields of the
returned chunk records form the contiguous, strictly increasing sequence
0, 1, 2, ... with no gaps, assigned in chunk-iteration order. -/
theorem chunk_indices_contiguous (req : Request)
    (resp : ProcessedDocumentResponse)
    (h : (process_pdf_document req).result = Except.ok resp) :
    resp.chunks.map (fun r => r.index) = List.range resp.chunks.length := by
  obtain ⟨doc, vecs, hconv, hemb, hlen, hresp⟩ := process_ok_inversion req resp h
  subst hresp
  simp only [attachedList_map_index, chunkDataOf_map_index,
    attachedList_length, chunkDataOf_length]

/-- Witness for C2: indices on the two-chunk request are `[0, 1]`. -/
theorem chunk_indices_contiguous_witness :
    respTwo.chunks.map (fun r => r.index) = List.range respTwo.chunks.length :=
  chunk_indices_contiguous reqTwo respTwo (by rfl)

/-- Claim C3: for every chunk produced by either endpoint, the chunk's own
text occurs verbatim as a substring of its contextualized text. -/
theorem chunk_text_substring_of_contextualized (req : Request)
    (resp : ProcessedDocumentResponse) (reqNE : RequestNE)
    (respNE : ChunksResponse)
    (hok : (process_pdf_document req).result = Except.ok resp)
    (hok2 : (extract_pdf_chunks reqNE).result = Except.ok respNE) :
    (∀ r ∈ resp.chunks, IsSubstringOf r.text r.contextualized_text) ∧
    (∀ r ∈ respNE.chunks, IsSubstringOf r.text r.contextualized_text) := by
  constructor
  · intro r hr
    obtain ⟨doc, vecs, hconv, hemb, hlen, hresp⟩ :=
      process_ok_inversion req resp hok
    subst hresp
    rw [List.mem_iff_getElem?] at hr
    obtain ⟨j, hj⟩ := hr
    rw [attachedList_getElem?] at hj
    obtain ⟨d, hd, hdr⟩ := Option.map_eq_some'.mp hj
    rw [chunkDataOf_getElem?] at hd
    obtain ⟨c, hc, hcd⟩ := Option.map_eq_some'.mp hd
    have h1 : r.text = c.text := by rw [← hdr, ← hcd]
    have h2 : r.contextualized_text = contextualize c := by rw [← hdr, ← hcd]
    rw [h1, h2]
    exact contextualize_substring c
  · intro r hr
    obtain ⟨doc, hconv, hresp⟩ := extract_ok_inversion reqNE respNE hok2
    subst hresp
    simp only [chunkResponsesNE, List.mem_map] at hr
    obtain ⟨c, hc, hcr⟩ := hr
    rw [← hcr]
    exact contextualize_substring c

/-- Witness for C3: on the two-chunk request the first chunk's text is a
substring of its contextualized text. -/
theorem chunk_text_substring_witness :
    IsSubstringOf "Hello world." "Introduction\nHello world." := by
  have h := (chunk_text_substring_of_contextualized reqTwo respTwo reqNEOne
    respNEOne (by rfl) (by rfl)).1
  exact h
    { text := "Hello world."
      contextualized_text := "Introduction\nHello world."
      embedding := [1], index := 0, meta := [] } (by decide)

/-- Claim C4: a well-formed document from which no chunks are extracted
succeeds with an empty chunk list and `total_chunks = 0` on both endpoints
(provided the embedding client honours its boundary contract of one vector
per input, hence returns a list on the empty batch). -/
theorem empty_document_succeeds (req : Request) (doc : Document)
    (vecs : List Vec) (reqNE : RequestNE) (docNE : Document)
    (hfn : filenameRejected req.filename = false)
    (hstage : req.stage = Except.ok ())
    (hconv : req.convert = Except.ok doc)
    (hempty : doc.chunks = [])
    (hembed : req.embed [] = Except.ok vecs)
    (hfn2 : filenameRejected reqNE.filename = false)
    (hstage2 : reqNE.stage = Except.ok ())
    (hconv2 : reqNE.convert = Except.ok docNE)
    (hempty2 : docNE.chunks = []) :
    (process_pdf_document req).result =
      Except.ok { chunks := [], total_chunks := 0, full_text := doc.full_text } ∧
    (extract_pdf_chunks reqNE).result =
      Except.ok { chunks := [], total_chunks := 0 } := by
  constructor
  · simp [process_pdf_document, hfn, hstage, hconv, hempty, hembed,
      chunkDataOf, attachEmbeddings]
  · simp [extract_pdf_chunks, hfn2, hstage2, hconv2, hempty2, chunkResponsesNE]

/-- Witness for C4: the concrete empty-document requests succeed with zero
chunks. -/
theorem empty_document_succeeds_witness :
    (process_pdf_document reqEmptyDoc).result =
      Except.ok { chunks := [], total_chunks := 0, full_text := "t" } ∧
    (extract_pdf_chunks reqNEEmptyDoc).result =
      Except.ok { chunks := [], total_chunks := 0 } :=
  empty_document_succeeds reqEmptyDoc { full_text := "t", chunks := [] } []
    reqNEEmptyDoc { full_text := "t", chunks := [] }
    rfl rfl rfl rfl rfl rfl rfl rfl rfl

/-- Claim C1 (counterexample): the claim that a vector-count mismatch makes
the orchestrator fail with zero embeddings attached is false — on a request
whose single chunk is answered with two vectors, the handler succeeds and
silently attaches the first vector, ignoring the extra one. -/
theorem embedding_mismatch_counterexample :
    reqExtraVec.embed ["Hello"] = Except.ok [[1], [2]] ∧
    (["Hello"] : List String).length ≠ ([[1], [2]] : List Vec).length ∧
    (process_pdf_document reqExtraVec).result =
      Except.ok
        { chunks :=
            [{ text := "Hello", contextualized_text := "Hello",
               embedding := [1], index := 0, meta := [] }]
          total_chunks := 1
          full_text := "f" } :=
  ⟨rfl, by decide, by decide⟩

/-- Claim C1 (amended): if the embeddings client returns fewer vectors than
chunks, the handler fails with HTTP 500 (an `IndexError`, not a dedicated
mismatch error) and the error response carries no embeddings; if it returns
at least as many, the handler succeeds, attaching the first `n` vectors by
position and silently ignoring any extras. -/
theorem embedding_mismatch_behavior (req : Request) (doc : Document)
    (vecs : List Vec)
    (hfn : filenameRejected req.filename = false)
    (hstage : req.stage = Except.ok ())
    (hconv : req.convert = Except.ok doc)
    (hemb : req.embed (doc.chunks.map contextualize) = Except.ok vecs) :
    (vecs.length < doc.chunks.length →
      (process_pdf_document req).result =
        Except.error (processErr "list index out of range")) ∧
    (doc.chunks.length ≤ vecs.length →
      (process_pdf_document req).result =
        Except.ok
          { chunks := attachedList (chunkDataOf doc.chunks) vecs 0
            total_chunks := doc.chunks.length
            full_text := doc.full_text }) := by
  constructor
  · intro hlt
    have hne : chunkDataOf doc.chunks ≠ [] := by
      intro h0
      have hl := chunkDataOf_length doc.chunks
      rw [h0] at hl
      simp only [List.length_nil] at hl
      omega
    have hatt := attachEmbeddings_error_of_lt (chunkDataOf doc.chunks) vecs 0
      hne (by rw [chunkDataOf_length]; omega)
    simp [process_pdf_document, hfn, hstage, hconv, hemb, hatt]
  · intro hle
    have hatt := attachEmbeddings_ok_of_le (chunkDataOf doc.chunks) vecs 0
      (by rw [chunkDataOf_length]; omega)
    simp [process_pdf_document, hfn, hstage, hconv, hemb, hatt,
      attachedList_length, chunkDataOf_length]

/-- Witness for the amended C1: too few vectors gives the 500 response with
no embeddings; enough vectors gives success by position. -/
theorem embedding_mismatch_behavior_witness :
    (process_pdf_document reqShortVec).result =
      Except.error (processErr "list index out of range") ∧
    (process_pdf_document reqExtraVec).result =
      Except.ok
        { chunks := attachedList (chunkDataOf docOne.chunks) [[1], [2]] 0
          total_chunks := docOne.chunks.length
          full_text := docOne.full_text } := by
  constructor
  · exact (embedding_mismatch_behavior reqShortVec docOne [] rfl rfl rfl
      rfl).1 (by decide)
  · exact (embedding_mismatch_behavior reqExtraVec docOne [[1], [2]] rfl rfl
      rfl rfl).2 (by decide)

/-- Claim C5 (counterexample): the claim that the temporary file is deleted
on every exit path of the handler is false — when reading the upload raises
inside the staging block, `tmp_file_path` is still `None`, the except
clause skips the unlink, and the handler exits with the file still on
disk. -/
theorem tmpfile_leak_counterexample :
    Event.tmpCreate ∈ (process_pdf_document reqLeak).events ∧
    Event.tmpUnlink ∉ (process_pdf_document reqLeak).events ∧
    (process_pdf_document reqLeak).result =
      Except.error (processErr "client disconnected") :=
  ⟨by decide, by decide, by decide⟩

/-- Claim C5 (amended): on every exit path reached after the uploaded bytes
were fully staged into the temporary file — conversion, chunking or
embedding failure as well as success — the created temporary file is
unlinked. -/
theorem tmpfile_cleanup_after_staging (req : Request)
    (hstage : req.stage = Except.ok ())
    (hcreate : Event.tmpCreate ∈ (process_pdf_document req).events) :
    Event.tmpUnlink ∈ (process_pdf_document req).events := by
  by_cases hfn : filenameRejected req.filename
  · simp [process_pdf_document, hfn] at hcreate
  · cases hconv : req.convert with
    | error e => simp [process_pdf_document, hfn, hstage, hconv]
    | ok doc =>
      cases hemb : req.embed (doc.chunks.map contextualize) with
      | error e => simp [process_pdf_document, hfn, hstage, hconv, hemb]
      | ok vecs =>
        cases hatt : attachEmbeddings (chunkDataOf doc.chunks) vecs 0 with
        | error e =>
          simp [process_pdf_document, hfn, hstage, hconv, hemb, hatt]
        | ok chunks =>
          simp [process_pdf_document, hfn, hstage, hconv, hemb, hatt]

/-- Witness for the amended C5: on the fully successful request the unlink
event is present. -/
theorem tmpfile_cleanup_after_staging_witness :
    Event.tmpUnlink ∈ (process_pdf_document reqTwo).events :=
  tmpfile_cleanup_after_staging reqTwo rfl (by decide)

/-- Claim C6: the batch entry point attempts every file of the scanned
directory; each success contributes exactly one converted output file, each
failure exactly one independent error report, and a failure on one file
never aborts the processing of the remaining files. -/
theorem batch_conversion_independent (files : List String)
    (stem : String → String) (convert : String → Except String String) :
    (batchConvert files stem convert).1 =
      files.filterMap (fun f =>
        match convert f with
        | Except.ok md => some (stem f ++ ".md", md)
        | Except.error _ => none) ∧
    (batchConvert files stem convert).2 =
      files.filterMap (fun f =>
        match convert f with
        | Except.ok _ => none
        | Except.error e => some (f, e)) ∧
    (batchConvert files stem convert).1.length +
      (batchConvert files stem convert).2.length = files.length := by
  induction files with
  | nil => simp [batchConvert]
  | cons f rest ih =>
    obtain ⟨ih1, ih2, ih3⟩ := ih
    cases hc : convert f with
    | ok md =>
      refine ⟨?_, ?_, ?_⟩
      · simp [batchConvert, hc, ih1, List.filterMap_cons]
      · simp [batchConvert, hc, ih2, List.filterMap_cons]
      · simp only [batchConvert, hc, List.length_cons]
        omega
    | error e =>
      refine ⟨?_, ?_, ?_⟩
      · simp [batchConvert, hc, ih1, List.filterMap_cons]
      · simp [batchConvert, hc, ih2, List.filterMap_cons]
      · simp only [batchConvert, hc, List.length_cons]
        omega

/-- Claim C7: an upload whose filename does not mark it as a PDF is
rejected with HTTP 400 and a `detail` body before any processing: no
temporary file, conversion, chunking or embedding event occurs, on either
endpoint. -/
theorem unsupported_type_rejected_early (req : Request) (reqNE : RequestNE)
    (h1 : ∀ fn, req.filename = some fn → endsWithPdf fn = false)
    (h2 : ∀ fn, reqNE.filename = some fn → endsWithPdf fn = false) :
    (process_pdf_document req).events = [] ∧
    (process_pdf_document req).result =
      Except.error { status := 400, detail := "Only PDF files are supported" } ∧
    (extract_pdf_chunks reqNE).events = [] ∧
    (extract_pdf_chunks reqNE).result =
      Except.error { status := 400, detail := "Only PDF files are supported" } := by
  have hr1 : filenameRejected req.filename = true := by
    cases hf : req.filename with
    | none => rfl
    | some fn => simp [filenameRejected, h1 fn hf]
  have hr2 : filenameRejected reqNE.filename = true := by
    cases hf : reqNE.filename with
    | none => rfl
    | some fn => simp [filenameRejected, h2 fn hf]
  refine ⟨?_, ?_, ?_, ?_⟩ <;>
    simp [process_pdf_document, extract_pdf_chunks, hr1, hr2, badFileErr]

/-- Witness for C7: a `.txt` upload is rejected with 400 and an empty event
trace on both endpoints. -/
theorem unsupported_type_rejected_early_witness :
    (process_pdf_document reqBadName).events = [] ∧
    (process_pdf_document reqBadName).result =
      Except.error { status := 400, detail := "Only PDF files are supported" } ∧
    (extract_pdf_chunks reqNEBadName).events = [] ∧
    (extract_pdf_chunks reqNEBadName).result =
      Except.error { status := 400, detail := "Only PDF files are supported" } :=
  unsupported_type_rejected_early reqBadName reqNEBadName
    (fun fn hf => by
      have hfn : fn = "doc.txt" := by
        have h := hf.symm
        simp only [reqBadName] at h
        exact (Option.some.injEq _ _).mp h
      subst hfn
      decide)
    (fun fn hf => by
      have hfn : fn = "doc.txt" := by
        have h := hf.symm
        simp only [reqNEBadName] at h
        exact (Option.some.injEq _ _).mp h
      subst hfn
      decide)

/-- Claim C8: contextualization is a deterministic pure function of the
chunk — contextualizing the same chunk twice (the second call on the chunk
object the first call returns) yields byte-identical strings, and the call
leaves the chunk unchanged. -/
theorem contextualize_pure_deterministic (c : Chunk) :
    (contextualizeS c).1 = (contextualizeS (contextualizeS c).2).1 ∧
    (contextualizeS c).2 = c := by
  constructor <;> rfl

/-- Claim C9: the full ordered list of contextualized strings is submitted
to the embeddings client as one single batch, and on success the chunk
record at position `j` carries exactly the `j`-th returned vector. -/
theorem embeddings_zipped_by_position (req : Request) (doc : Document)
    (vecs : List Vec)
    (hfn : filenameRejected req.filename = false)
    (hstage : req.stage = Except.ok ())
    (hconv : req.convert = Except.ok doc)
    (hemb : req.embed (doc.chunks.map contextualize) = Except.ok vecs) :
    (process_pdf_document req).events =
      [Event.tmpCreate, Event.convertCall, Event.chunkCall,
       Event.embedCall (doc.chunks.map contextualize), Event.tmpUnlink] ∧
    ∀ resp, (process_pdf_document req).result = Except.ok resp →
      resp.chunks.length = doc.chunks.length ∧
      ∀ j, j < resp.chunks.length →
        (resp.chunks[j]?.map fun r => r.embedding) = vecs[j]? := by
  constructor
  · cases hatt : attachEmbeddings (chunkDataOf doc.chunks) vecs 0 <;>
      simp [process_pdf_document, hfn, hstage, hconv, hemb, hatt]
  · intro resp hresp
    obtain ⟨doc', vecs', hconv', hemb', hlen', hresp'⟩ :=
      process_ok_inversion req resp hresp
    rw [hconv] at hconv'
    have hd : doc = doc' := (Except.ok.injEq _ _).mp hconv'
    subst hd
    rw [hemb] at hemb'
    have hv : vecs = vecs' := (Except.ok.injEq _ _).mp hemb'
    subst hv
    subst hresp'
    constructor
    · rw [attachedList_length, chunkDataOf_length]
    · intro j hj
      rw [attachedList_length, chunkDataOf_length] at hj
      exact attachedList_embedding doc.chunks vecs j hj
        (lt_of_lt_of_le hj hlen')

/-- Witness for C9: on the two-chunk request the second chunk record
carries the second returned vector. -/
theorem embeddings_zipped_by_position_witness :
    (process_pdf_document reqTwo).events =
      [Event.tmpCreate, Event.convertCall, Event.chunkCall,
       Event.embedCall (docTwo.chunks.map contextualize), Event.tmpUnlink] ∧
    (respTwo.chunks[1]?.map fun r => r.embedding) =
      ([[1], [2]] : List Vec)[1]? := by
  have h := embeddings_zipped_by_position reqTwo docTwo [[1], [2]]
    rfl rfl rfl rfl
  exact ⟨h.1, (h.2 respTwo (by decide)).2 1 (by decide)⟩

/-- Claim C10: a chunk whose metadata object does not provide
`export_json_dict` yields a chunk record whose `meta` field is the empty
dictionary, not an error or an omitted field, on either endpoint. -/
theorem meta_defaults_to_empty_dict (req : Request) (doc : Document)
    (resp : ProcessedDocumentResponse) (reqNE : RequestNE) (docNE : Document)
    (respNE : ChunksResponse) (j k : Nat) (c c' : Chunk)
    (hconv : req.convert = Except.ok doc)
    (hok : (process_pdf_document req).result = Except.ok resp)
    (hc : doc.chunks[j]? = some c)
    (hm : c.metaExport = none)
    (hconv2 : reqNE.convert = Except.ok docNE)
    (hok2 : (extract_pdf_chunks reqNE).result = Except.ok respNE)
    (hc2 : docNE.chunks[k]? = some c')
    (hm2 : c'.metaExport = none) :
    (resp.chunks[j]?.map fun r => r.meta) = some [] ∧
    (respNE.chunks[k]?.map fun r => r.meta) = some [] := by
  constructor
  · obtain ⟨doc', vecs, hconv', hemb, hlen, hresp⟩ :=
      process_ok_inversion req resp hok
    rw [hconv] at hconv'
    have hd : doc = doc' := (Except.ok.injEq _ _).mp hconv'
    subst hd
    subst hresp
    rw [attachedList_getElem?, chunkDataOf_getElem?, hc]
    simp [metaOf, hm]
  · obtain ⟨docNE', hconv2', hresp2⟩ := extract_ok_inversion reqNE respNE hok2
    rw [hconv2] at hconv2'
    have hd : docNE = docNE' := (Except.ok.injEq _ _).mp hconv2'
    subst hd
    subst hresp2
    simp [chunkResponsesNE, List.getElem?_map, hc2, metaOf, hm2]

/-- Witness for C10: on the concrete requests the chunk without
`export_json_dict` gets the empty dictionary as `meta`. -/
theorem meta_defaults_to_empty_dict_witness :
    (respTwo.chunks[0]?.map fun r => r.meta) = some [] ∧
    (respNEOne.chunks[0]?.map fun r => r.meta) = some [] :=
  meta_defaults_to_empty_dict reqTwo docTwo respTwo reqNEOne
    { full_text := "f"
      chunks := [{ text := "Hi", headings := ["H"], metaExport := none }] }
    respNEOne 0 0
    { text := "Hello world.", headings := ["Introduction"], metaExport := none }
    { text := "Hi", headings := ["H"], metaExport := none }
    rfl (by decide) rfl rfl rfl (by decide) rfl rfl

end BoardgameRef
